import Mathlib

/-!
Verification of the core of the `osb` storyboard-generation library.

The development shallowly embeds the Rust sources:
  * `src/easing.rs`        : the `Easing` enumeration, its `PartialEq`
    instance, `get_easing`, `id`, `ease` and `calculate`;
  * `src/utils/interval_map.rs` : the `IntervalMap` structure with `push`
    and `get` (including a faithful embedding of
    `core::slice::binary_search_by`);
  * `src/event/*.rs`       : the eleven event kinds and their `to_line`
    serializers;
  * `src/visuals/sprite.rs`: `Sprite`, `events_to_str` and `to_str`.

Modelling conventions:
  * Rust `i32` time stamps and values are embedded as `Int`; `usize`
    depths and `u32` frame counters as `Nat`.  None of the verified
    claims exercises integer overflow.
  * `f32` values are embedded as exact rationals.  The transcendental
    `f32` intrinsics used by `calculate` (`sin`, `cos`, `sqrt`,
    `powf` with base 2) and the `f32` constant `PI` are abstracted as a
    parameter structure `RealOps`; every theorem about `ease` and
    `calculate` is proved for an arbitrary choice of these operations.
    Likewise the `Display` rendering of an `f32` is abstracted as a
    function parameter `fs : ℚ → String`; all concrete inputs in the
    claims use integer payloads, which render independently of `fs`.
  * The iteration order of the `std::collections::HashSet` used by
    `events_to_str` is unspecified in Rust; serialization is therefore
    embedded as a relation between a sprite and its possible outputs.
-/

/- ================= src/easing.rs ================= -/

/-- The `Easing` enumeration of `src/easing.rs`, in declaration order
(the `repr(u8)` discriminants are the constructor indices). -/
inductive Easing where
  | Linear
  | Out
  | In
  | QuadIn
  | QuadOut
  | QuadInOut
  | CubicIn
  | CubicOut
  | CubicInOut
  | QuartIn
  | QuartOut
  | QuartInOut
  | QuintIn
  | QuintOut
  | QuintInOut
  | SineIn
  | SineOut
  | SineInOut
  | ExpoIn
  | ExpoOut
  | ExpoInOut
  | CircIn
  | CircOut
  | CircInOut
  | ElasticIn
  | ElasticOut
  | ElasticHalfOut
  | ElasticQuarterOut
  | ElasticInOut
  | BackIn
  | BackOut
  | BackInOut
  | BounceIn
  | BounceOut
  | BounceInOut
  deriving DecidableEq, Repr, Fintype

/-- The `repr(u8)` discriminant of an `Easing` (Rust `self as u8`). -/
def Easing.asU8 : Easing → Nat
  | .Linear => 0
  | .Out => 1
  | .In => 2
  | .QuadIn => 3
  | .QuadOut => 4
  | .QuadInOut => 5
  | .CubicIn => 6
  | .CubicOut => 7
  | .CubicInOut => 8
  | .QuartIn => 9
  | .QuartOut => 10
  | .QuartInOut => 11
  | .QuintIn => 12
  | .QuintOut => 13
  | .QuintInOut => 14
  | .SineIn => 15
  | .SineOut => 16
  | .SineInOut => 17
  | .ExpoIn => 18
  | .ExpoOut => 19
  | .ExpoInOut => 20
  | .CircIn => 21
  | .CircOut => 22
  | .CircInOut => 23
  | .ElasticIn => 24
  | .ElasticOut => 25
  | .ElasticHalfOut => 26
  | .ElasticQuarterOut => 27
  | .ElasticInOut => 28
  | .BackIn => 29
  | .BackOut => 30
  | .BackInOut => 31
  | .BounceIn => 32
  | .BounceOut => 33
  | .BounceInOut => 34

/-- `Easing::id` of `src/easing.rs` (`self as u8`). -/
def Easing.id (e : Easing) : Nat :=
  e.asU8

/-- The `PartialEq::eq` implementation for `Easing`
(`src/easing.rs`, lines 88-103): ten explicit alias cases, then
discriminant comparison. -/
def Easing.eq (a b : Easing) : Bool :=
  match a, b with
  | .Out, .QuadOut => true
  | .QuadOut, .Out => true
  | .In, .QuadIn => true
  | .QuadIn, .In => true
  | .ElasticOut, .ElasticHalfOut => true
  | .ElasticHalfOut, .ElasticOut => true
  | .ElasticOut, .ElasticQuarterOut => true
  | .ElasticQuarterOut, .ElasticOut => true
  | .ElasticHalfOut, .ElasticQuarterOut => true
  | .ElasticQuarterOut, .ElasticHalfOut => true
  | x, y => x.asU8 == y.asU8

/-- The error type of `Easing::get_easing`. -/
inductive EasingParsingError where
  | IncorrectID
  deriving DecidableEq, Repr

/-- `Easing::get_easing` of `src/easing.rs` (lines 114-153): the
id-to-easing lookup table. -/
def Easing.get_easing : Nat → Except EasingParsingError Easing
  | 0 => .ok .Linear
  | 1 => .ok .QuadOut
  | 2 => .ok .QuadIn
  | 3 => .ok .QuadIn
  | 4 => .ok .QuadOut
  | 5 => .ok .QuadInOut
  | 6 => .ok .CubicIn
  | 7 => .ok .CubicOut
  | 8 => .ok .CubicInOut
  | 9 => .ok .QuartIn
  | 10 => .ok .QuartOut
  | 11 => .ok .QuartInOut
  | 12 => .ok .QuintIn
  | 13 => .ok .QuintOut
  | 14 => .ok .QuintInOut
  | 15 => .ok .SineIn
  | 16 => .ok .SineOut
  | 17 => .ok .SineInOut
  | 18 => .ok .ExpoIn
  | 19 => .ok .ExpoOut
  | 20 => .ok .ExpoInOut
  | 21 => .ok .CircIn
  | 22 => .ok .CircOut
  | 23 => .ok .CircInOut
  | 24 => .ok .ElasticIn
  | 25 => .ok .ElasticOut
  | 26 => .ok .ElasticOut
  | 27 => .ok .ElasticOut
  | 28 => .ok .ElasticInOut
  | 29 => .ok .BackIn
  | 30 => .ok .BackOut
  | 31 => .ok .BackInOut
  | 32 => .ok .BounceIn
  | 33 => .ok .BounceOut
  | 34 => .ok .BounceInOut
  | _ => .error .IncorrectID

/- ============ src/utils/number.rs (the part used by ease) ============ -/

/-- The `Number` tagged union of `src/utils/number.rs`; `f32` payloads
are modelled as exact rationals. -/
inductive Number where
  | Int (val : Int)
  | Float (val : ℚ)
  deriving DecidableEq, Repr

/-- `Number::as_f32` of `src/utils/number.rs`. -/
def Number.as_f32 : Number → ℚ
  | .Int v => (v : ℚ)
  | .Float v => v

/-- Abstraction of the `f32` primitives used by `Easing::calculate`:
`cos`, `sin`, `sqrt`, `powf` with base `2.0`, and the constant
`std::f32::consts::PI`.  All theorems hold for every interpretation. -/
structure RealOps where
  cos : ℚ → ℚ
  sin : ℚ → ℚ
  sqrt : ℚ → ℚ
  exp2 : ℚ → ℚ
  pi : ℚ

/-- A termination measure for `Easing.calculate`: the depth of the
mutual recursion through the inlined `reverse` and `in_out` helpers. -/
def Easing.rank : Easing → Nat
  | .Out | .QuadOut | .CubicOut | .QuartOut | .QuintOut | .SineOut
  | .ExpoOut | .CircOut | .ElasticIn | .BackOut | .BounceIn => 1
  | .QuadInOut | .CubicInOut | .QuartInOut | .QuintInOut | .SineInOut
  | .ExpoInOut | .BackInOut => 1
  | .CircInOut | .ElasticInOut | .BounceInOut => 2
  | _ => 0

/-- `f32::EPSILON`, exactly `2 ^ (-23)`. -/
def f32Epsilon : ℚ := 1 / 8388608

/-- `Easing::calculate` of `src/easing.rs` (lines 201-257).  The private
helpers `reverse` (`1. - self.calculate(1. - x)`) and `in_out`
(`0.5 * if x < 0.5 { self.calculate(2. * x) } else { 2. - self.calculate(2. - 2. * x) }`)
are inlined at their call sites; decimal `f32` literals are read as
exact rationals. -/
def Easing.calculate (ops : RealOps) (e : Easing) (x : ℚ) : ℚ :=
  if x < f32Epsilon then
    0
  else if 1 - x < f32Epsilon then
    1
  else
    match e with
    | .Linear => x
    | .In | .QuadIn => x * x
    | .Out | .QuadOut => 1 - Easing.calculate ops .In (1 - x)
    | .QuadInOut =>
        0.5 * (if x < 0.5 then Easing.calculate ops .In (2 * x)
               else 2 - Easing.calculate ops .In (2 - 2 * x))
    | .CubicIn => x * x * x
    | .CubicOut => 1 - Easing.calculate ops .CubicIn (1 - x)
    | .CubicInOut =>
        0.5 * (if x < 0.5 then Easing.calculate ops .CubicIn (2 * x)
               else 2 - Easing.calculate ops .CubicIn (2 - 2 * x))
    | .QuartIn => x * x * x * x
    | .QuartOut => 1 - Easing.calculate ops .QuartIn (1 - x)
    | .QuartInOut =>
        0.5 * (if x < 0.5 then Easing.calculate ops .QuartIn (2 * x)
               else 2 - Easing.calculate ops .QuartIn (2 - 2 * x))
    | .QuintIn => x * x * x * x * x
    | .QuintOut => 1 - Easing.calculate ops .QuintIn (1 - x)
    | .QuintInOut =>
        0.5 * (if x < 0.5 then Easing.calculate ops .QuintIn (2 * x)
               else 2 - Easing.calculate ops .QuintIn (2 - 2 * x))
    | .SineIn => 1 - ops.cos (x * ops.pi / 2)
    | .SineOut => 1 - Easing.calculate ops .SineIn (1 - x)
    | .SineInOut =>
        0.5 * (if x < 0.5 then Easing.calculate ops .SineIn (2 * x)
               else 2 - Easing.calculate ops .SineIn (2 - 2 * x))
    | .ExpoIn => ops.exp2 (10 * (x - 1))
    | .ExpoOut => 1 - Easing.calculate ops .ExpoIn (1 - x)
    | .ExpoInOut =>
        0.5 * (if x < 0.5 then Easing.calculate ops .ExpoIn (2 * x)
               else 2 - Easing.calculate ops .ExpoIn (2 - 2 * x))
    | .CircIn => 1 - ops.sqrt (1 - x * x)
    | .CircOut => 1 - Easing.calculate ops .CircIn (1 - x)
    | .CircInOut =>
        0.5 * (if x < 0.5 then Easing.calculate ops .CircOut (2 * x)
               else 2 - Easing.calculate ops .CircOut (2 - 2 * x))
    | .ElasticIn => 1 - Easing.calculate ops .ElasticOut (1 - x)
    | .ElasticOut | .ElasticHalfOut | .ElasticQuarterOut =>
        ops.exp2 (-10 * x) * ops.sin ((x - 0.075) * 2 * ops.pi / 0.3) + 1
    | .ElasticInOut =>
        0.5 * (if x < 0.5 then Easing.calculate ops .ElasticIn (2 * x)
               else 2 - Easing.calculate ops .ElasticIn (2 - 2 * x))
    | .BackIn => x * x * ((1.70158 + 1) * x - 1.70158)
    | .BackOut => 1 - Easing.calculate ops .BackIn (1 - x)
    | .BackInOut =>
        0.5 * (if x < 0.5 then Easing.calculate ops .BackIn (2 * x)
               else 2 - Easing.calculate ops .BackIn (2 - 2 * x))
    | .BounceIn => 1 - Easing.calculate ops .BounceOut (1 - x)
    | .BounceOut =>
        if x < 1 / 2.75 then 7.5625 * x * x
        else if x < 2 / 2.75 then 7.5625 * (x - 1.5 / 2.75) * (x - 1.5 / 2.75) + 0.75
        else if x < 2.5 / 2.75 then 7.5625 * (x - 2.5 / 2.75) * (x - 2.5 / 2.75) + 0.9375
        else 7.5625 * (x - 2.625 / 2.75) * (x - 2.625 / 2.75) + 0.984375
    | .BounceInOut =>
        0.5 * (if x < 0.5 then Easing.calculate ops .BounceIn (2 * x)
               else 2 - Easing.calculate ops .BounceIn (2 - 2 * x))
  termination_by e.rank
  decreasing_by all_goals decide

/-- `Easing::ease` of `src/easing.rs` (lines 178-199). -/
def Easing.ease (ops : RealOps) (e : Easing) (time start_time end_time : Int)
    (f t : Number) : Option ℚ :=
  let fromV := f.as_f32
  let toV := t.as_f32
  if time < start_time ∨ time > end_time ∨ toV < fromV then
    none
  else
    some (Easing.calculate ops e (((time - start_time : Int) : ℚ) / ((end_time - start_time : Int) : ℚ))
      * (toV - fromV) + fromV)

/- ================= src/utils/interval_map.rs ================= -/

/-- A half-open range `[start, stop)`, Rust's `std::ops::Range` (whose
second field is named `end`, a reserved word in Lean). -/
structure Range (K : Type) where
  start : K
  stop : K

/-- Loop body of `core::slice::binary_search_by`: while `left < right`,
probe `mid = left + (right - left) / 2` (the Rust code keeps
`size = right - left` in a separate variable) and narrow the interval;
return `Ok mid` on `Equal`, otherwise `Err left` when the interval is
empty.  The extra fuel argument only bounds the iteration count; it is
never exhausted when called with `fuel > right - left`. -/
def bsearchGo {α : Type} (f : α → Ordering) (l : List α) :
    Nat → Nat → Nat → Except Nat Nat
  | 0, left, _right => .error left
  | fuel + 1, left, right =>
    if left < right then
      let mid := left + (right - left) / 2
      match l[mid]? with
      | some a =>
        match f a with
        | .lt => bsearchGo f l fuel (mid + 1) right
        | .gt => bsearchGo f l fuel left mid
        | .eq => .ok mid
      | none => .error left
    else
      .error left

/-- `slice::binary_search_by` on a list: `.ok i` when `f l[i] = .eq`,
`.error i` with the insertion point otherwise. -/
def rustBinarySearch {α : Type} (f : α → Ordering) (l : List α) : Except Nat Nat :=
  bsearchGo f l (l.length + 1) 0 l.length

/-- The `IntervalMap` structure of `src/utils/interval_map.rs`: a sorted
sequence of breakpoints, each carrying the values active from its key on. -/
structure IntervalMap (K V : Type) where
  points : List (K × List V)

/-- `IntervalMap::new`. -/
def IntervalMap.new {K V : Type} : IntervalMap K V :=
  ⟨[]⟩

/-- The forward walk of `IntervalMap::push` starting at the breakpoint
found for `range.start`: every breakpoint with key `Less` or `Equal` to
`range.end` gets `value` appended; on the first `Greater` key a new
breakpoint at `range.end` (cloning that point's list, plus `value`) is
inserted before it and the walk stops; if the walk exhausts the list, a
terminal breakpoint `(range.end, [])` is appended. -/
def pushWalk {K V : Type} [Ord K] (value : V) (rend : K) :
    List (K × List V) → List (K × List V)
  | [] => [(rend, [])]
  | (k, vs) :: rest =>
    match compare k rend with
    | .gt => (rend, vs ++ [value]) :: (k, vs) :: rest
    | _ => (k, vs ++ [value]) :: pushWalk value rend rest

/-- `IntervalMap::push` of `src/utils/interval_map.rs` (lines 37-69):
binary-search for `range.start`; if absent, insert a breakpoint there
cloning the predecessor's values (`points.get(position.wrapping_sub(1))`
is `None` for position `0`); then run the forward walk from that
position. -/
def IntervalMap.push {K V : Type} [Ord K] (m : IntervalMap K V)
    (range : Range K) (value : V) : IntervalMap K V :=
  let search := rustBinarySearch (fun p => compare p.1 range.start) m.points
  let (position, pts) :=
    match search with
    | .ok position => (position, m.points)
    | .error position =>
      let prevValues :=
        match position with
        | 0 => []
        | p + 1 => ((m.points[p]?).map Prod.snd).getD []
      (position, m.points.take position ++ (range.start, prevValues) :: m.points.drop position)
  ⟨pts.take position ++ pushWalk value range.stop (pts.drop position)⟩

/-- `IntervalMap::get` of `src/utils/interval_map.rs` (lines 89-108):
binary-search for `key`; on a miss at insertion point `0` return the
empty list, otherwise the values of the preceding breakpoint; on a hit
return that breakpoint's values. -/
def IntervalMap.get {K V : Type} [Ord K] (m : IntervalMap K V) (key : K) : List V :=
  let index :=
    match rustBinarySearch (fun p => compare p.1 key) m.points with
    | .error index => if index = 0 then none else some (index - 1)
    | .ok index => some index
  match index with
  | none => []
  | some i => ((m.points[i]?).map Prod.snd).getD []

/- ============ layers, origins, colors, vectors ============ -/

/-- The `Layer` enumeration of `src/layer.rs`. -/
inductive Layer where
  | Background
  | Fail
  | Pass
  | Foreground
  | Overlay
  deriving DecidableEq, Repr

/-- The `Display` implementation for `Layer`. -/
def Layer.display : Layer → String
  | .Background => "Background"
  | .Fail => "Fail"
  | .Pass => "Pass"
  | .Foreground => "Foreground"
  | .Overlay => "Overlay"

/-- The `Origin` enumeration of `src/origin.rs`. -/
inductive Origin where
  | TopLeft
  | TopCentre
  | TopRight
  | CentreLeft
  | Centre
  | CentreRight
  | BottomLeft
  | BottomCentre
  | BottomRight
  deriving DecidableEq, Repr

/-- The `Display` implementation for `Origin`. -/
def Origin.display : Origin → String
  | .TopLeft => "TopLeft"
  | .TopCentre => "TopCentre"
  | .TopRight => "TopRight"
  | .CentreLeft => "CentreLeft"
  | .Centre => "Centre"
  | .CentreRight => "CentreRight"
  | .BottomLeft => "BottomLeft"
  | .BottomCentre => "BottomCentre"
  | .BottomRight => "BottomRight"

/-- The `LoopType` enumeration of `src/visuals/sprite.rs`. -/
inductive LoopType where
  | LoopOnce
  | LoopForever
  deriving DecidableEq, Repr

/-- The `Vec2` pair of `src/utils/vec2.rs` (the components used by
serialization). -/
structure Vec2 where
  x : Number
  y : Number
  deriving DecidableEq, Repr

/-- The `Color` value type of `src/utils/color.rs`, with channels
as stored after `Color::from`'s clamping. -/
structure Color where
  r : Int
  g : Int
  b : Int
  deriving DecidableEq, Repr

/-- `" ".repeat(depth)`. -/
def spaces (n : Nat) : String :=
  ⟨List.replicate n ' '⟩

/-- The `Display` rendering of a `Number`
(`src/utils/number.rs`, lines 82-89); the rendering of an `f32` is the
abstract parameter `fs`. -/
def Number.display (fs : ℚ → String) : Number → String
  | .Int v => toString v
  | .Float v => fs v

/- ============ src/event/*.rs : the eleven event kinds ============ -/

/-- The `Move` event of `src/event/move.rs`. -/
inductive Move where
  | Static (depth : Nat) (time : Int) (pos : Vec2)
  | Dynamic (depth : Nat) (easing : Easing) (start_time end_time : Int)
      (start_pos end_pos : Vec2)
  deriving DecidableEq, Repr

/-- `Move::to_line`. -/
def Move.to_line (fs : ℚ → String) : Move → String
  | .Static d time pos =>
    spaces d ++ (" M," ++ (toString (Easing.id .Linear) ++ "," ++ toString time
      ++ ",," ++ pos.x.display fs ++ "," ++ pos.y.display fs))
  | .Dynamic d easing start_time end_time start_pos end_pos =>
    spaces d ++ (" M," ++ (toString easing.id ++ "," ++ toString start_time
      ++ "," ++ toString end_time ++ "," ++ start_pos.x.display fs ++ ","
      ++ start_pos.y.display fs ++ "," ++ end_pos.x.display fs ++ ","
      ++ end_pos.y.display fs))

/-- The depth carried by a `Move` event. -/
def Move.depth : Move → Nat
  | .Static d _ _ => d
  | .Dynamic d _ _ _ _ _ => d

/-- The `MoveX` event of `src/event/movex.rs`. -/
inductive MoveX where
  | Static (depth : Nat) (time : Int) (value : Number)
  | Dynamic (depth : Nat) (easing : Easing) (start_time end_time : Int)
      (start_value end_value : Number)
  deriving DecidableEq, Repr

/-- `MoveX::to_line`. -/
def MoveX.to_line (fs : ℚ → String) : MoveX → String
  | .Static d time value =>
    spaces d ++ (" MX," ++ (toString (Easing.id .Linear) ++ "," ++ toString time
      ++ ",," ++ value.display fs))
  | .Dynamic d easing start_time end_time start_value end_value =>
    spaces d ++ (" MX," ++ (toString easing.id ++ "," ++ toString start_time
      ++ "," ++ toString end_time ++ "," ++ start_value.display fs ++ ","
      ++ end_value.display fs))

/-- The depth carried by a `MoveX` event. -/
def MoveX.depth : MoveX → Nat
  | .Static d _ _ => d
  | .Dynamic d _ _ _ _ _ => d

/-- The `MoveY` event of `src/event/movey.rs`. -/
inductive MoveY where
  | Static (depth : Nat) (time : Int) (value : Number)
  | Dynamic (depth : Nat) (easing : Easing) (start_time end_time : Int)
      (start_value end_value : Number)
  deriving DecidableEq, Repr

/-- `MoveY::to_line`. -/
def MoveY.to_line (fs : ℚ → String) : MoveY → String
  | .Static d time value =>
    spaces d ++ (" MY," ++ (toString (Easing.id .Linear) ++ "," ++ toString time
      ++ ",," ++ value.display fs))
  | .Dynamic d easing start_time end_time start_value end_value =>
    spaces d ++ (" MY," ++ (toString easing.id ++ "," ++ toString start_time
      ++ "," ++ toString end_time ++ "," ++ start_value.display fs ++ ","
      ++ end_value.display fs))

/-- The depth carried by a `MoveY` event. -/
def MoveY.depth : MoveY → Nat
  | .Static d _ _ => d
  | .Dynamic d _ _ _ _ _ => d

/-- The `Fade` event of `src/event/fade.rs`. -/
inductive Fade where
  | Static (depth : Nat) (time : Int) (value : Number)
  | Dynamic (depth : Nat) (easing : Easing) (start_time end_time : Int)
      (start_value end_value : Number)
  deriving DecidableEq, Repr

/-- `Fade::to_line` (`src/event/fade.rs`, lines 54-77). -/
def Fade.to_line (fs : ℚ → String) : Fade → String
  | .Static d time value =>
    spaces d ++ (" F," ++ (toString (Easing.id .Linear) ++ "," ++ toString time
      ++ ",," ++ value.display fs))
  | .Dynamic d easing start_time end_time start_value end_value =>
    spaces d ++ (" F," ++ (toString easing.id ++ "," ++ toString start_time
      ++ "," ++ toString end_time ++ "," ++ start_value.display fs ++ ","
      ++ end_value.display fs))

/-- The depth carried by a `Fade` event. -/
def Fade.depth : Fade → Nat
  | .Static d _ _ => d
  | .Dynamic d _ _ _ _ _ => d

/-- `Fade::get_start_time`. -/
def Fade.get_start_time : Fade → Int
  | .Static _ start_time _ => start_time
  | .Dynamic _ _ start_time _ _ _ => start_time

/-- `Fade::get_end_time` (for a `Static` event this is the single
timestamp). -/
def Fade.get_end_time : Fade → Int
  | .Static _ end_time _ => end_time
  | .Dynamic _ _ _ end_time _ _ => end_time

/-- `Fade::set_depth`. -/
def Fade.set_depth (depth : Nat) : Fade → Fade
  | .Static _ time value => .Static depth time value
  | .Dynamic _ easing st et sv ev => .Dynamic depth easing st et sv ev

/-- The `Rotate` event of `src/event/rotate.rs`. -/
inductive Rotate where
  | Static (depth : Nat) (time : Int) (value : Number)
  | Dynamic (depth : Nat) (easing : Easing) (start_time end_time : Int)
      (start_value end_value : Number)
  deriving DecidableEq, Repr

/-- `Rotate::to_line`. -/
def Rotate.to_line (fs : ℚ → String) : Rotate → String
  | .Static d time value =>
    spaces d ++ (" R," ++ (toString (Easing.id .Linear) ++ "," ++ toString time
      ++ ",," ++ value.display fs))
  | .Dynamic d easing start_time end_time start_value end_value =>
    spaces d ++ (" R," ++ (toString easing.id ++ "," ++ toString start_time
      ++ "," ++ toString end_time ++ "," ++ start_value.display fs ++ ","
      ++ end_value.display fs))

/-- The depth carried by a `Rotate` event. -/
def Rotate.depth : Rotate → Nat
  | .Static d _ _ => d
  | .Dynamic d _ _ _ _ _ => d

/-- The `Scale` event of `src/event/scale.rs`. -/
inductive Scale where
  | Static (depth : Nat) (time : Int) (value : Number)
  | Dynamic (depth : Nat) (easing : Easing) (start_time end_time : Int)
      (start_value end_value : Number)
  deriving DecidableEq, Repr

/-- `Scale::to_line`. -/
def Scale.to_line (fs : ℚ → String) : Scale → String
  | .Static d time value =>
    spaces d ++ (" S," ++ (toString (Easing.id .Linear) ++ "," ++ toString time
      ++ ",," ++ value.display fs))
  | .Dynamic d easing start_time end_time start_value end_value =>
    spaces d ++ (" S," ++ (toString easing.id ++ "," ++ toString start_time
      ++ "," ++ toString end_time ++ "," ++ start_value.display fs ++ ","
      ++ end_value.display fs))

/-- The depth carried by a `Scale` event. -/
def Scale.depth : Scale → Nat
  | .Static d _ _ => d
  | .Dynamic d _ _ _ _ _ => d

/-- The `ScaleVec` event of `src/event/scalevec.rs`. -/
inductive ScaleVec where
  | Static (depth : Nat) (time : Int) (scale : Vec2)
  | Dynamic (depth : Nat) (easing : Easing) (start_time end_time : Int)
      (start_scale end_scale : Vec2)
  deriving DecidableEq, Repr

/-- `ScaleVec::to_line`. -/
def ScaleVec.to_line (fs : ℚ → String) : ScaleVec → String
  | .Static d time scale =>
    spaces d ++ (" V," ++ (toString (Easing.id .Linear) ++ "," ++ toString time
      ++ ",," ++ scale.x.display fs ++ "," ++ scale.y.display fs))
  | .Dynamic d easing start_time end_time start_scale end_scale =>
    spaces d ++ (" V," ++ (toString easing.id ++ "," ++ toString start_time
      ++ "," ++ toString end_time ++ "," ++ start_scale.x.display fs ++ ","
      ++ start_scale.y.display fs ++ "," ++ end_scale.x.display fs ++ ","
      ++ end_scale.y.display fs))

/-- The depth carried by a `ScaleVec` event. -/
def ScaleVec.depth : ScaleVec → Nat
  | .Static d _ _ => d
  | .Dynamic d _ _ _ _ _ => d

/-- The `Color` event of `src/event/color.rs` (named `ColorEvent` here
to distinguish it from the `utils::Color` value type). -/
inductive ColorEvent where
  | Static (depth : Nat) (time : Int) (color : Color)
  | Dynamic (depth : Nat) (easing : Easing) (start_time end_time : Int)
      (start_color end_color : Color)
  deriving DecidableEq, Repr

/-- `Color::to_line` (`src/event/color.rs`, lines 44-73). -/
def ColorEvent.to_line (_fs : ℚ → String) : ColorEvent → String
  | .Static d time color =>
    spaces d ++ (" C," ++ (toString (Easing.id .Linear) ++ "," ++ toString time
      ++ ",," ++ toString color.r ++ "," ++ toString color.g ++ ","
      ++ toString color.b))
  | .Dynamic d easing start_time end_time start_color end_color =>
    spaces d ++ (" C," ++ (toString easing.id ++ "," ++ toString start_time
      ++ "," ++ toString end_time ++ "," ++ toString start_color.r ++ ","
      ++ toString start_color.g ++ "," ++ toString start_color.b ++ ","
      ++ toString end_color.r ++ "," ++ toString end_color.g ++ ","
      ++ toString end_color.b))

/-- The depth carried by a `ColorEvent`. -/
def ColorEvent.depth : ColorEvent → Nat
  | .Static d _ _ => d
  | .Dynamic d _ _ _ _ _ => d

/-- The `HFlip` event of `src/event/hflip.rs` (dynamic-only). -/
inductive HFlip where
  | Dynamic (depth : Nat) (easing : Easing) (start_time end_time : Int)
  deriving DecidableEq, Repr

/-- `HFlip::to_line` (`src/event/hflip.rs`, lines 25-37). -/
def HFlip.to_line (_fs : ℚ → String) : HFlip → String
  | .Dynamic d easing start_time end_time =>
    spaces d ++ (" P," ++ (toString easing.id ++ "," ++ toString start_time
      ++ "," ++ toString end_time ++ ",H"))

/-- The depth carried by an `HFlip` event. -/
def HFlip.depth : HFlip → Nat
  | .Dynamic d _ _ _ => d

/-- The `VFlip` event of `src/event/vflip.rs` (dynamic-only). -/
inductive VFlip where
  | Dynamic (depth : Nat) (easing : Easing) (start_time end_time : Int)
  deriving DecidableEq, Repr

/-- `VFlip::to_line`. -/
def VFlip.to_line (_fs : ℚ → String) : VFlip → String
  | .Dynamic d easing start_time end_time =>
    spaces d ++ (" P," ++ (toString easing.id ++ "," ++ toString start_time
      ++ "," ++ toString end_time ++ ",V"))

/-- The depth carried by a `VFlip` event. -/
def VFlip.depth : VFlip → Nat
  | .Dynamic d _ _ _ => d

/-- The `Additive` event of `src/event/additive.rs` (dynamic-only;
named `AdditiveEvent` here to avoid a mathlib name). -/
inductive AdditiveEvent where
  | Dynamic (depth : Nat) (easing : Easing) (start_time end_time : Int)
  deriving DecidableEq, Repr

/-- `Additive::to_line`. -/
def AdditiveEvent.to_line (_fs : ℚ → String) : AdditiveEvent → String
  | .Dynamic d easing start_time end_time =>
    spaces d ++ (" P," ++ (toString easing.id ++ "," ++ toString start_time
      ++ "," ++ toString end_time ++ ",A"))

/-- The depth carried by an `Additive` event. -/
def AdditiveEvent.depth : AdditiveEvent → Nat
  | .Dynamic d _ _ _ => d

/- ================= src/visuals/sprite.rs ================= -/

/-- The deterministic part of `events_to_str`
(`src/visuals/sprite.rs`, lines 28-38): the list
`events.points.iter().flat_map(|(_, inner_vec)| inner_vec.iter().map(|t| t.to_line() + "\n"))`
in iteration order, before it is collected into a `HashSet`. -/
def eventLines {V : Type} (toLine : V → String) (m : IntervalMap Int V) : List String :=
  (m.points.map (fun p => p.2.map (fun v => toLine v ++ "\n"))).flatten

/-- `l` is a possible iteration order of the `HashSet` built by
`events_to_str`: a duplicate-free list whose members are exactly the
line strings produced from the interval map.  Rust does not specify
which such order the `HashSet` yields. -/
def HashLines {V : Type} (toLine : V → String) (m : IntervalMap Int V)
    (l : List String) : Prop :=
  l.Nodup ∧ ∀ x, x ∈ l ↔ x ∈ eventLines toLine m

/-- `out` is a possible result of `events_to_str` on the map `m`:
the concatenation (`join("")`) of some `HashSet` iteration order. -/
def EventsToStrRel {V : Type} (toLine : V → String) (m : IntervalMap Int V)
    (out : String) : Prop :=
  ∃ l, HashLines toLine m l ∧ out = String.join l

/-- The `EventCollection` of `src/visuals/sprite.rs`: one `IntervalMap`
per event kind, keyed by `i32` times. -/
structure EventCollection where
  move_ : IntervalMap Int Move
  movex_ : IntervalMap Int MoveX
  movey_ : IntervalMap Int MoveY
  fade_ : IntervalMap Int Fade
  rotate_ : IntervalMap Int Rotate
  scale_ : IntervalMap Int Scale
  scalevec_ : IntervalMap Int ScaleVec
  color_ : IntervalMap Int ColorEvent
  hflip_ : IntervalMap Int HFlip
  vflip_ : IntervalMap Int VFlip
  additive_ : IntervalMap Int AdditiveEvent

/-- `EventCollection::new`. -/
def EventCollection.new : EventCollection :=
  ⟨IntervalMap.new, IntervalMap.new, IntervalMap.new, IntervalMap.new,
   IntervalMap.new, IntervalMap.new, IntervalMap.new, IntervalMap.new,
   IntervalMap.new, IntervalMap.new, IntervalMap.new⟩

/-- `out` is a possible result of `EventCollection::to_str`
(`src/visuals/sprite.rs`, lines 57-72): the per-kind `events_to_str`
results concatenated in the fixed order Move, MoveX, MoveY, Fade,
Rotate, Scale, ScaleVec, Color, HFlip, VFlip, Additive. -/
def EventCollectionRel (fs : ℚ → String) (c : EventCollection) (out : String) : Prop :=
  ∃ bm bmx bmy bf br bs bsv bc bh bv ba,
    EventsToStrRel (Move.to_line fs) c.move_ bm ∧
    EventsToStrRel (MoveX.to_line fs) c.movex_ bmx ∧
    EventsToStrRel (MoveY.to_line fs) c.movey_ bmy ∧
    EventsToStrRel (Fade.to_line fs) c.fade_ bf ∧
    EventsToStrRel (Rotate.to_line fs) c.rotate_ br ∧
    EventsToStrRel (Scale.to_line fs) c.scale_ bs ∧
    EventsToStrRel (ScaleVec.to_line fs) c.scalevec_ bsv ∧
    EventsToStrRel (ColorEvent.to_line fs) c.color_ bc ∧
    EventsToStrRel (HFlip.to_line fs) c.hflip_ bh ∧
    EventsToStrRel (VFlip.to_line fs) c.vflip_ bv ∧
    EventsToStrRel (AdditiveEvent.to_line fs) c.additive_ ba ∧
    out = bm ++ bmx ++ bmy ++ bf ++ br ++ bs ++ bsv ++ bc ++ bh ++ bv ++ ba

/-- The `SpriteType` discriminator of `src/visuals/sprite.rs`. -/
inductive SpriteType where
  | Sprite
  | Animation (frame_count frame_delay : Nat) (loop_type : LoopType)

/-- The `Sprite` structure of `src/visuals/sprite.rs`. -/
structure Sprite where
  events : EventCollection
  current_depth : Nat
  path : String
  pos : Vec2
  layer : Layer
  origin : Origin
  start_time : Option Int
  end_time : Option Int
  type_ : SpriteType

/-- The `Into<Sprite>` conversion from a path string
(`src/visuals/sprite.rs`, lines 490-504): default position `(320,240)`,
layer `Background`, origin `Centre`. -/
def Sprite.fromPath (path : String) : Sprite :=
  { events := EventCollection.new
    current_depth := 0
    path := path
    pos := ⟨.Int 320, .Int 240⟩
    layer := .Background
    origin := .Centre
    start_time := none
    end_time := none
    type_ := .Sprite }

/-- The `Into<Sprite>` conversion from
`(&str, u32, u32, LoopType)` (`src/visuals/sprite.rs`, lines 822-840):
an animation sprite with default position, layer and origin. -/
def Sprite.fromPathAnimation (path : String) (frame_count frame_delay : Nat)
    (loop_type : LoopType) : Sprite :=
  { events := EventCollection.new
    current_depth := 0
    path := path
    pos := ⟨.Int 320, .Int 240⟩
    layer := .Background
    origin := .Centre
    start_time := none
    end_time := none
    type_ := .Animation frame_count frame_delay loop_type }

/-- `Sprite::fade_` together with the `add_event!` macro
(`src/visuals/sprite.rs`, lines 98-124 and 203-209): update the
aggregate time bounds, set the event's depth to the sprite's current
depth and push it into the fade interval map keyed by
`event_start..event_end`. -/
def Sprite.fade_ (s : Sprite) (event : Fade) : Sprite :=
  let event_start := event.get_start_time
  let event_end := event.get_end_time
  { s with
    start_time :=
      match s.start_time with
      | some sprite_start =>
        if event_start < sprite_start then some event_start else some sprite_start
      | none => some event_start
    end_time :=
      match s.end_time with
      | some sprite_end =>
        if sprite_end < event_end then some event_end else some sprite_end
      | none => some event_end
    events :=
      { s.events with
        fade_ := s.events.fade_.push ⟨event_start, event_end⟩
          (event.set_depth s.current_depth) } }

/-- The header line of `Sprite::to_str`
(`src/visuals/sprite.rs`, lines 412-448), including the trailing
newline that separates it from the event body. -/
def spriteHeader (fs : ℚ → String) (s : Sprite) : String :=
  match s.type_ with
  | .Sprite =>
    "Sprite," ++ s.layer.display ++ "," ++ s.origin.display ++ ",\"" ++ s.path
      ++ "\"," ++ s.pos.x.display fs ++ "," ++ s.pos.y.display fs ++ "\n"
  | .Animation frame_count frame_delay loop_type =>
    "Animation," ++ s.layer.display ++ "," ++ s.origin.display ++ ",\"" ++ s.path
      ++ "\"," ++ s.pos.x.display fs ++ "," ++ s.pos.y.display fs ++ ","
      ++ toString frame_count ++ "," ++ toString frame_delay
      ++ (match loop_type with
          | .LoopOnce => ",LoopOnce"
          | .LoopForever => "")
      ++ "\n"

/-- `out` is a possible result of `Sprite::to_str`: the header followed
by a possible `EventCollection::to_str` body. -/
def SpriteToStr (fs : ℚ → String) (s : Sprite) (out : String) : Prop :=
  ∃ body, EventCollectionRel fs s.events body ∧ out = spriteHeader fs s ++ body

/-- The number of leading space characters of a string. -/
def leadingSpaces (s : String) : Nat :=
  (s.data.takeWhile (fun c => c == ' ')).length

/- ============ concrete instances used by the claims ============ -/

/-- A fixed (arbitrary) rendering of float values, used to instantiate
the abstract float-display parameter on concrete inputs. -/
def fs0 : ℚ → String := fun _ => ""

/-- A sprite built through the public API: `Sprite::new("res/sprite.png")`
followed by `fade_((0, 1))` and `fade_((1000, 1))` (two static fades
with distinct serialized lines). -/
def sprite0 : Sprite :=
  ((Sprite.fromPath "res/sprite.png").fade_ (.Static 0 0 (.Int 1))).fade_
    (.Static 0 1000 (.Int 1))

/-- One possible serialization of `sprite0` (fade lines in insertion
order). -/
def sprite0Out1 : String :=
  "Sprite,Background,Centre,\"res/sprite.png\",320,240\n F,0,0,,1\n F,0,1000,,1\n"

/-- Another possible serialization of `sprite0` (fade lines in the
opposite order). -/
def sprite0Out2 : String :=
  "Sprite,Background,Centre,\"res/sprite.png\",320,240\n F,0,1000,,1\n F,0,0,,1\n"

/- ================= Claims ================= -/

/-- Claim C7: after push(10..50, 1) and push(30..55, 2) on a fresh
IntervalMap, get(20) yields exactly the value 1, get(40) yields 1 and 2,
get(53) yields 2, and get(0) and get(100) yield nothing. -/
theorem interval_map_push_get_example :
    let m : IntervalMap Int Int := (IntervalMap.new.push ⟨10, 50⟩ 1).push ⟨30, 55⟩ 2
    m.get 20 = [1] ∧ m.get 40 = [1, 2] ∧ m.get 53 = [2]
      ∧ m.get 0 = [] ∧ m.get 100 = [] := by
  decide

/-- Claim C1 (evaluation at the failing input): after push(0..10, 1),
push(0..20, 2), push(0..10, 3) the breakpoint keys are 0, 10, 10, 20 -
not strictly increasing - and get(15) yields the value 3, although the
range 0..10 of the third push does not contain 15 (the union of pushed
values whose range contains 15 is exactly the value 2). -/
theorem interval_map_push_range_end_bug :
    let m : IntervalMap Int Int :=
      ((IntervalMap.new.push ⟨0, 10⟩ 1).push ⟨0, 20⟩ 2).push ⟨0, 10⟩ 3
    m.points.map Prod.fst = [0, 10, 10, 20]
      ∧ ¬ (m.points.map Prod.fst).Pairwise (· < ·)
      ∧ m.get 15 = [3]
      ∧ m.get 15 ≠ [2] := by
  decide

/-- Claim C4: get_easing succeeds on every id in [0,34] and fails with
an error on every id at least 35; the mapping is many-to-one: ids 2 and
3 both yield QuadIn, 1 and 4 both yield QuadOut, and 25, 26, 27 all
yield ElasticOut. -/
theorem get_easing_total_table :
    (∀ i : Fin 35, (Easing.get_easing i).isOk = true)
    ∧ (∀ k : Nat, Easing.get_easing (k + 35) = .error .IncorrectID)
    ∧ Easing.get_easing 2 = .ok .QuadIn
    ∧ Easing.get_easing 3 = .ok .QuadIn
    ∧ Easing.get_easing 1 = .ok .QuadOut
    ∧ Easing.get_easing 4 = .ok .QuadOut
    ∧ Easing.get_easing 25 = .ok .ElasticOut
    ∧ Easing.get_easing 26 = .ok .ElasticOut
    ∧ Easing.get_easing 27 = .ok .ElasticOut := by
  refine ⟨by decide, fun k => rfl, rfl, rfl, rfl, rfl, rfl, rfl, rfl⟩

/-- Claim C5: Easing equality holds for Out = QuadOut, In = QuadIn and
pairwise among ElasticOut, ElasticHalfOut, ElasticQuarterOut (both
argument orders), every enumerator equals itself, and no other pair of
distinct enumerators compares equal. -/
theorem easing_eq_characterization :
    ∀ a b : Easing, Easing.eq a b = true ↔ (a = b ∨
      (a = .Out ∧ b = .QuadOut) ∨ (a = .QuadOut ∧ b = .Out) ∨
      (a = .In ∧ b = .QuadIn) ∨ (a = .QuadIn ∧ b = .In) ∨
      (a = .ElasticOut ∧ b = .ElasticHalfOut) ∨ (a = .ElasticHalfOut ∧ b = .ElasticOut) ∨
      (a = .ElasticOut ∧ b = .ElasticQuarterOut) ∨ (a = .ElasticQuarterOut ∧ b = .ElasticOut) ∨
      (a = .ElasticHalfOut ∧ b = .ElasticQuarterOut) ∨ (a = .ElasticQuarterOut ∧ b = .ElasticHalfOut)) := by
  decide

/-- Claim C10: Easing equality is not a congruence for id: Out equals
QuadOut but their ids are 1 and 4, In equals QuadIn with ids 2 and 3,
the ElasticOut family is pairwise equal with ids 25, 26, 27; hence two
Dynamic Fade events that agree in every field up to Easing equality can
serialize to different lines. -/
theorem easing_eq_id_incongruent :
    Easing.eq .Out .QuadOut = true ∧ Easing.id .Out = 1 ∧ Easing.id .QuadOut = 4
    ∧ Easing.eq .In .QuadIn = true ∧ Easing.id .In = 2 ∧ Easing.id .QuadIn = 3
    ∧ Easing.eq .ElasticOut .ElasticHalfOut = true
    ∧ Easing.eq .ElasticHalfOut .ElasticQuarterOut = true
    ∧ Easing.eq .ElasticOut .ElasticQuarterOut = true
    ∧ Easing.id .ElasticOut = 25 ∧ Easing.id .ElasticHalfOut = 26
    ∧ Easing.id .ElasticQuarterOut = 27
    ∧ ∀ fs : ℚ → String,
        Fade.to_line fs (.Dynamic 0 .Out 0 1000 (.Int 0) (.Int 1))
          ≠ Fade.to_line fs (.Dynamic 0 .QuadOut 0 1000 (.Int 0) (.Int 1)) := by
  refine ⟨rfl, rfl, rfl, rfl, rfl, rfl, rfl, rfl, rfl, rfl, rfl, rfl, fun fs => ?_⟩
  have h1 : Fade.to_line fs (.Dynamic 0 .Out 0 1000 (.Int 0) (.Int 1))
      = " F,1,0,1000,0,1" := rfl
  have h2 : Fade.to_line fs (.Dynamic 0 .QuadOut 0 1000 (.Int 0) (.Int 1))
      = " F,4,0,1000,0,1" := rfl
  rw [h1, h2]
  decide

/-- Claim C3: for every easing kind and all arguments, ease returns none
exactly when time is before start_time, after end_time, or the target
value is below the source value; otherwise it returns the value
calculate(kind, (time - start_time)/(end_time - start_time)) scaled
into [from, to]; in particular ease(Linear, 5, 0, 4, 0, 10) and
ease(Linear, 2, 0, 4, 10, 5) both return none. -/
theorem ease_domain_spec :
    ∀ (ops : RealOps) (e : Easing) (time start_time end_time : Int) (f t : Number),
      (Easing.ease ops e time start_time end_time f t = none
        ↔ (time < start_time ∨ time > end_time ∨ t.as_f32 < f.as_f32))
      ∧ (∀ v : ℚ, Easing.ease ops e time start_time end_time f t = some v
          ↔ (¬(time < start_time ∨ time > end_time ∨ t.as_f32 < f.as_f32)
             ∧ v = Easing.calculate ops e
                 (((time - start_time : Int) : ℚ) / ((end_time - start_time : Int) : ℚ))
               * (t.as_f32 - f.as_f32) + f.as_f32))
      ∧ Easing.ease ops .Linear 5 0 4 (.Int 0) (.Int 10) = none
      ∧ Easing.ease ops .Linear 2 0 4 (.Int 10) (.Int 5) = none := by
  intro ops e time start_time end_time f t
  refine ⟨?_, fun v => ?_, rfl, rfl⟩
  · by_cases h : time < start_time ∨ time > end_time ∨ t.as_f32 < f.as_f32
    · simp [Easing.ease, h]
    · simp [Easing.ease, h]
  · by_cases h : time < start_time ∨ time > end_time ∨ t.as_f32 < f.as_f32
    · simp [Easing.ease, h]
    · simp [Easing.ease, h, eq_comm]

/-- Helper: leading-space count of d spaces followed by a space and a
non-space character. -/
theorem takeWhile_replicate_space (d : Nat) (c : Char) (l : List Char)
    (hc : (c == ' ') = false) :
    ((List.replicate d ' ' ++ ' ' :: c :: l).takeWhile (fun ch => ch == ' ')).length
      = d + 1 := by
  induction d with
  | zero => simp [List.takeWhile_cons, hc]
  | succ n ih => simpa [List.replicate_succ, List.takeWhile_cons] using ih

/-- Helper: a line made of indent spaces, then a command chunk starting
with a space and a non-space character, then anything, has exactly
depth + 1 leading spaces. -/
theorem leadingSpaces_indent (d : Nat) (cmd rest : String) (c : Char) (l : List Char)
    (hcmd : cmd.data = ' ' :: c :: l) (hc : (c == ' ') = false) :
    leadingSpaces (spaces d ++ (cmd ++ rest)) = d + 1 := by
  unfold leadingSpaces
  rw [String.data_append, String.data_append, hcmd,
    show (spaces d).data = List.replicate d ' ' from rfl]
  simp only [List.cons_append]
  exact takeWhile_replicate_space d c (l ++ rest.data) hc

/-- Claim C8: a Static Fade event with time 0 and value 1 at depth 0
serializes to exactly " F,0,0,,1"; every Static event line (for each of
the eight kinds with a Static form) carries easing id 0 and an empty
end-time field rendered as two consecutive commas. -/
theorem static_event_line_shape :
    ∀ (fs : ℚ → String),
      (∀ (d : Nat) (t : Int) (v : Number),
        Fade.to_line fs (.Static d t v)
          = spaces d ++ (" F," ++ ("0" ++ "," ++ toString t ++ ",," ++ v.display fs)))
      ∧ (∀ (d : Nat) (t : Int) (p : Vec2),
        Move.to_line fs (.Static d t p)
          = spaces d ++ (" M," ++ ("0" ++ "," ++ toString t ++ ",," ++ p.x.display fs
              ++ "," ++ p.y.display fs)))
      ∧ (∀ (d : Nat) (t : Int) (v : Number),
        MoveX.to_line fs (.Static d t v)
          = spaces d ++ (" MX," ++ ("0" ++ "," ++ toString t ++ ",," ++ v.display fs)))
      ∧ (∀ (d : Nat) (t : Int) (v : Number),
        MoveY.to_line fs (.Static d t v)
          = spaces d ++ (" MY," ++ ("0" ++ "," ++ toString t ++ ",," ++ v.display fs)))
      ∧ (∀ (d : Nat) (t : Int) (v : Number),
        Rotate.to_line fs (.Static d t v)
          = spaces d ++ (" R," ++ ("0" ++ "," ++ toString t ++ ",," ++ v.display fs)))
      ∧ (∀ (d : Nat) (t : Int) (v : Number),
        Scale.to_line fs (.Static d t v)
          = spaces d ++ (" S," ++ ("0" ++ "," ++ toString t ++ ",," ++ v.display fs)))
      ∧ (∀ (d : Nat) (t : Int) (p : Vec2),
        ScaleVec.to_line fs (.Static d t p)
          = spaces d ++ (" V," ++ ("0" ++ "," ++ toString t ++ ",," ++ p.x.display fs
              ++ "," ++ p.y.display fs)))
      ∧ (∀ (d : Nat) (t : Int) (c : Color),
        ColorEvent.to_line fs (.Static d t c)
          = spaces d ++ (" C," ++ ("0" ++ "," ++ toString t ++ ",," ++ toString c.r
              ++ "," ++ toString c.g ++ "," ++ toString c.b)))
      ∧ Fade.to_line fs (.Static 0 0 (.Int 1)) = " F,0,0,,1" := by
  intro fs
  exact ⟨fun d t v => rfl, fun d t p => rfl, fun d t v => rfl, fun d t v => rfl,
    fun d t v => rfl, fun d t v => rfl, fun d t p => rfl, fun d t c => rfl, rfl⟩

/-- Claim C6 (counterexample): a Dynamic Move with easing QuadOut at
depth 2 renders with three leading spaces (two indent spaces plus the
space before the command code), not two. -/
theorem dynamic_depth2_three_spaces :
    Move.to_line (fun _ => "") (.Dynamic 2 .QuadOut 0 1000 ⟨.Int 0, .Int 0⟩ ⟨.Int 320, .Int 240⟩)
        = "   M,4,0,1000,0,0,320,240"
    ∧ leadingSpaces (Move.to_line (fun _ => "")
        (.Dynamic 2 .QuadOut 0 1000 ⟨.Int 0, .Int 0⟩ ⟨.Int 320, .Int 240⟩)) ≠ 2 := by
  decide

/-- Claim C6 (amended): every serialized command line begins with
exactly depth + 1 space characters (the depth indent plus the literal
space preceding the command code); in particular a Dynamic Move with
easing QuadOut at depth 2 renders with three leading spaces and easing
id 4. -/
theorem to_line_indent_depth_plus_one :
    ∀ (fs : ℚ → String),
      (∀ e : Move, leadingSpaces (Move.to_line fs e) = e.depth + 1)
      ∧ (∀ e : MoveX, leadingSpaces (MoveX.to_line fs e) = e.depth + 1)
      ∧ (∀ e : MoveY, leadingSpaces (MoveY.to_line fs e) = e.depth + 1)
      ∧ (∀ e : Fade, leadingSpaces (Fade.to_line fs e) = e.depth + 1)
      ∧ (∀ e : Rotate, leadingSpaces (Rotate.to_line fs e) = e.depth + 1)
      ∧ (∀ e : Scale, leadingSpaces (Scale.to_line fs e) = e.depth + 1)
      ∧ (∀ e : ScaleVec, leadingSpaces (ScaleVec.to_line fs e) = e.depth + 1)
      ∧ (∀ e : ColorEvent, leadingSpaces (ColorEvent.to_line fs e) = e.depth + 1)
      ∧ (∀ e : HFlip, leadingSpaces (HFlip.to_line fs e) = e.depth + 1)
      ∧ (∀ e : VFlip, leadingSpaces (VFlip.to_line fs e) = e.depth + 1)
      ∧ (∀ e : AdditiveEvent, leadingSpaces (AdditiveEvent.to_line fs e) = e.depth + 1)
      ∧ Move.to_line fs (.Dynamic 2 .QuadOut 0 1000 ⟨.Int 0, .Int 0⟩ ⟨.Int 320, .Int 240⟩)
          = "   M,4,0,1000,0,0,320,240" := by
  intro fs
  refine ⟨fun e => ?_, fun e => ?_, fun e => ?_, fun e => ?_, fun e => ?_, fun e => ?_,
    fun e => ?_, fun e => ?_, fun e => ?_, fun e => ?_, fun e => ?_, rfl⟩
  all_goals cases e
  all_goals exact leadingSpaces_indent _ _ _ _ _ rfl (by decide)

/-- Helper: the empty interval map produces no lines, so the only
possible HashSet order is the empty list. -/
theorem hashLines_nil {V : Type} (toLine : V → String) :
    HashLines toLine (IntervalMap.new (K := Int) (V := V)) [] := by
  exact ⟨List.nodup_nil, fun x => by simp [eventLines, IntervalMap.new]⟩

/-- Helper: any HashSet order for the empty interval map is the empty
list. -/
theorem hashLines_nil_eq {V : Type} (toLine : V → String) (l : List String)
    (h : HashLines toLine (IntervalMap.new (K := Int) (V := V)) l) : l = [] := by
  refine List.eq_nil_iff_forall_not_mem.2 fun x hx => ?_
  have hmem := (h.2 x).1 hx
  simp [eventLines, IntervalMap.new] at hmem

/-- Helper: the only possible `events_to_str` output for an empty
interval map is the empty string. -/
theorem eventsToStrRel_nil_eq {V : Type} (toLine : V → String) (out : String)
    (h : EventsToStrRel toLine (IntervalMap.new (K := Int) (V := V)) out) :
    out = "" := by
  obtain ⟨l, hl, rfl⟩ := h
  rw [hashLines_nil_eq toLine l hl]
  rfl

/-- Helper: the empty string is a possible `events_to_str` output for
an empty interval map. -/
theorem eventsToStrRel_nil {V : Type} (toLine : V → String) :
    EventsToStrRel toLine (IntervalMap.new (K := Int) (V := V)) "" :=
  ⟨[], hashLines_nil toLine, rfl⟩

/-- Helper: the character data of a left fold of string appends. -/
theorem foldl_append_data (l : List String) :
    ∀ acc : String, (l.foldl (fun r s => r ++ s) acc).data
      = acc.data ++ (l.map String.data).flatten := by
  induction l with
  | nil => intro acc; simp
  | cons a l ih =>
    intro acc
    simp [List.foldl_cons, ih, String.data_append, List.append_assoc]

/-- Helper: the character data of `String.join`. -/
theorem join_data (l : List String) :
    (String.join l).data = (l.map String.data).flatten := by
  have := foldl_append_data l ""
  simpa [String.join] using this

/-- Helper: two possible `events_to_str` outputs for the same interval
map are character-for-character permutations of each other. -/
theorem eventsRel_data_perm {V : Type} {toLine : V → String}
    {m : IntervalMap Int V} {b₁ b₂ : String}
    (h₁ : EventsToStrRel toLine m b₁) (h₂ : EventsToStrRel toLine m b₂) :
    b₁.data.Perm b₂.data := by
  obtain ⟨l₁, hl₁, rfl⟩ := h₁
  obtain ⟨l₂, hl₂, rfl⟩ := h₂
  have hperm : l₁.Perm l₂ :=
    (List.perm_ext_iff_of_nodup hl₁.1 hl₂.1).2
      (fun a => (hl₁.2 a).trans (hl₂.2 a).symm)
  rw [join_data, join_data]
  exact (hperm.map String.data).flatten

/-- Helper: the fade interval map of `sprite0` yields exactly the two
static fade lines, in insertion order. -/
theorem sprite0_eventLines :
    eventLines (Fade.to_line fs0) sprite0.events.fade_
      = [" F,0,0,,1\n", " F,0,1000,,1\n"] := by
  decide

/-- Helper: `sprite0Out1` is a possible `Sprite::to_str` output of
`sprite0`. -/
theorem sprite0_to_str_out1 : SpriteToStr fs0 sprite0 sprite0Out1 := by
  refine ⟨" F,0,0,,1\n F,0,1000,,1\n",
    ⟨"", "", "", " F,0,0,,1\n F,0,1000,,1\n", "", "", "", "", "", "", "",
      eventsToStrRel_nil _, eventsToStrRel_nil _, eventsToStrRel_nil _,
      ⟨[" F,0,0,,1\n", " F,0,1000,,1\n"], ⟨by decide, fun x => ?_⟩, by decide⟩,
      eventsToStrRel_nil _, eventsToStrRel_nil _, eventsToStrRel_nil _,
      eventsToStrRel_nil _, eventsToStrRel_nil _, eventsToStrRel_nil _,
      eventsToStrRel_nil _, by decide⟩,
    by decide⟩
  rw [sprite0_eventLines]

/-- Helper: `sprite0Out2` is a possible `Sprite::to_str` output of
`sprite0`. -/
theorem sprite0_to_str_out2 : SpriteToStr fs0 sprite0 sprite0Out2 := by
  refine ⟨" F,0,1000,,1\n F,0,0,,1\n",
    ⟨"", "", "", " F,0,1000,,1\n F,0,0,,1\n", "", "", "", "", "", "", "",
      eventsToStrRel_nil _, eventsToStrRel_nil _, eventsToStrRel_nil _,
      ⟨[" F,0,1000,,1\n", " F,0,0,,1\n"], ⟨by decide, fun x => ?_⟩, by decide⟩,
      eventsToStrRel_nil _, eventsToStrRel_nil _, eventsToStrRel_nil _,
      eventsToStrRel_nil _, eventsToStrRel_nil _, eventsToStrRel_nil _,
      eventsToStrRel_nil _, by decide⟩,
    by decide⟩
  rw [sprite0_eventLines]
  exact (List.Perm.swap _ _ _).mem_iff

/-- Claim C2 (counterexample): the sprite built by two static fades has
two distinct possible `Sprite::to_str` outputs - serialization joins a
HashSet in its unspecified iteration order - so byte-identical repeat
serialization is not guaranteed. -/
theorem sprite_to_str_not_deterministic :
    SpriteToStr fs0 sprite0 sprite0Out1 ∧ SpriteToStr fs0 sprite0 sprite0Out2
      ∧ sprite0Out1 ≠ sprite0Out2 :=
  ⟨sprite0_to_str_out1, sprite0_to_str_out2, by decide⟩

/-- Claim C2 (amended): two serializations of the same unmutated sprite
agree up to reordering: for each event kind the two HashSet iteration
orders are permutations of the same duplicate-free line list, and the
two full outputs are character-for-character permutations of each
other (byte-identical whenever every kind has at most one distinct
line). -/
theorem sprite_to_str_upto_line_order :
    (∀ (V : Type) (toLine : V → String) (m : IntervalMap Int V) (l₁ l₂ : List String),
      HashLines toLine m l₁ → HashLines toLine m l₂ → l₁.Perm l₂)
    ∧ (∀ (fs : ℚ → String) (s : Sprite) (out₁ out₂ : String),
      SpriteToStr fs s out₁ → SpriteToStr fs s out₂ → out₁.data.Perm out₂.data) := by
  constructor
  · intro V toLine m l₁ l₂ h₁ h₂
    exact (List.perm_ext_iff_of_nodup h₁.1 h₂.1).2
      (fun a => (h₁.2 a).trans (h₂.2 a).symm)
  · rintro fs s out₁ out₂
      ⟨b₁, ⟨m₁, mx₁, my₁, f₁, r₁, s₁, sv₁, c₁, h₁, v₁, a₁,
        hm₁, hmx₁, hmy₁, hf₁, hr₁, hs₁, hsv₁, hc₁, hh₁, hv₁, ha₁, rfl⟩, rfl⟩
      ⟨b₂, ⟨m₂, mx₂, my₂, f₂, r₂, s₂, sv₂, c₂, h₂, v₂, a₂,
        hm₂, hmx₂, hmy₂, hf₂, hr₂, hs₂, hsv₂, hc₂, hh₂, hv₂, ha₂, rfl⟩, rfl⟩
    simp only [String.data_append]
    exact (List.Perm.refl (spriteHeader fs s).data).append
      ((((((((((((eventsRel_data_perm hm₁ hm₂).append
        (eventsRel_data_perm hmx₁ hmx₂)).append
        (eventsRel_data_perm hmy₁ hmy₂)).append
        (eventsRel_data_perm hf₁ hf₂)).append
        (eventsRel_data_perm hr₁ hr₂)).append
        (eventsRel_data_perm hs₁ hs₂)).append
        (eventsRel_data_perm hsv₁ hsv₂)).append
        (eventsRel_data_perm hc₁ hc₂)).append
        (eventsRel_data_perm hh₁ hh₂)).append
        (eventsRel_data_perm hv₁ hv₂)).append
        (eventsRel_data_perm ha₁ ha₂)))

/-- Witness for the amended claim C2 at a concrete sprite: the two
concrete serializations of `sprite0` are character permutations. -/
theorem sprite_to_str_upto_line_order_witness :
    SpriteToStr fs0 sprite0 sprite0Out1 ∧ SpriteToStr fs0 sprite0 sprite0Out2
      ∧ sprite0Out1.data.Perm sprite0Out2.data :=
  ⟨sprite0_to_str_out1, sprite0_to_str_out2,
    sprite_to_str_upto_line_order.2 fs0 sprite0 sprite0Out1 sprite0Out2
      sprite0_to_str_out1 sprite0_to_str_out2⟩

/-- Claim C9: an animation sprite with path sb/sprite.jpg, frame count
10, frame delay 10 and LoopOnce (default layer, origin, position) and
no events serializes to exactly
Animation,Background,Centre,"sb/sprite.jpg",320,240,10,10,LoopOnce
followed by a newline; with LoopForever no trailing suffix is added to
the header. -/
theorem animation_header_exact :
    (∀ (fs : ℚ → String) (out : String),
      SpriteToStr fs (Sprite.fromPathAnimation "sb/sprite.jpg" 10 10 .LoopOnce) out →
        out = "Animation,Background,Centre,\"sb/sprite.jpg\",320,240,10,10,LoopOnce\n")
    ∧ (∀ (fs : ℚ → String) (out : String),
      SpriteToStr fs (Sprite.fromPathAnimation "sb/sprite.jpg" 10 10 .LoopForever) out →
        out = "Animation,Background,Centre,\"sb/sprite.jpg\",320,240,10,10\n") := by
  constructor
  all_goals
    rintro fs out
      ⟨body, ⟨bm, bmx, bmy, bf, br, bs, bsv, bc, bh, bv, ba,
        hm, hmx, hmy, hf, hr, hsc, hsv, hcol, hh, hv, ha, rfl⟩, rfl⟩
    rw [eventsToStrRel_nil_eq _ _ hm, eventsToStrRel_nil_eq _ _ hmx,
      eventsToStrRel_nil_eq _ _ hmy, eventsToStrRel_nil_eq _ _ hf,
      eventsToStrRel_nil_eq _ _ hr, eventsToStrRel_nil_eq _ _ hsc,
      eventsToStrRel_nil_eq _ _ hsv, eventsToStrRel_nil_eq _ _ hcol,
      eventsToStrRel_nil_eq _ _ hh, eventsToStrRel_nil_eq _ _ hv,
      eventsToStrRel_nil_eq _ _ ha]
    rfl

/-- Witness for claim C9: both header strings are indeed possible
outputs, and the theorem applies to them. -/
theorem animation_header_exact_witness :
    SpriteToStr fs0 (Sprite.fromPathAnimation "sb/sprite.jpg" 10 10 .LoopOnce)
        "Animation,Background,Centre,\"sb/sprite.jpg\",320,240,10,10,LoopOnce\n"
    ∧ SpriteToStr fs0 (Sprite.fromPathAnimation "sb/sprite.jpg" 10 10 .LoopForever)
        "Animation,Background,Centre,\"sb/sprite.jpg\",320,240,10,10\n"
    ∧ "Animation,Background,Centre,\"sb/sprite.jpg\",320,240,10,10,LoopOnce\n"
        = "Animation,Background,Centre,\"sb/sprite.jpg\",320,240,10,10,LoopOnce\n" := by
  have h1 : SpriteToStr fs0 (Sprite.fromPathAnimation "sb/sprite.jpg" 10 10 .LoopOnce)
      "Animation,Background,Centre,\"sb/sprite.jpg\",320,240,10,10,LoopOnce\n" :=
    ⟨"", ⟨"", "", "", "", "", "", "", "", "", "", "",
      eventsToStrRel_nil _, eventsToStrRel_nil _, eventsToStrRel_nil _,
      eventsToStrRel_nil _, eventsToStrRel_nil _, eventsToStrRel_nil _,
      eventsToStrRel_nil _, eventsToStrRel_nil _, eventsToStrRel_nil _,
      eventsToStrRel_nil _, eventsToStrRel_nil _, rfl⟩, rfl⟩
  have h2 : SpriteToStr fs0 (Sprite.fromPathAnimation "sb/sprite.jpg" 10 10 .LoopForever)
      "Animation,Background,Centre,\"sb/sprite.jpg\",320,240,10,10\n" :=
    ⟨"", ⟨"", "", "", "", "", "", "", "", "", "", "",
      eventsToStrRel_nil _, eventsToStrRel_nil _, eventsToStrRel_nil _,
      eventsToStrRel_nil _, eventsToStrRel_nil _, eventsToStrRel_nil _,
      eventsToStrRel_nil _, eventsToStrRel_nil _, eventsToStrRel_nil _,
      eventsToStrRel_nil _, eventsToStrRel_nil _, rfl⟩, rfl⟩
  exact ⟨h1, h2, animation_header_exact.1 fs0 _ h1⟩
